import Mathlib

/-!
Shallow embedding of the sysrepo datastore engine fragments that the verified
claims are about: the data manager (dm) commit pipeline pieces from
src/examples/oper_data_example.c and the request processor (rp) pieces from
src/src/request_processor.c.

Conventions of the embedding:
* C integers (time_t, long) become Int; counters become Nat.
* Error codes SR_ERR_* become the inductive SrErr.
* struct timespec becomes Timespec.
* Pointer-identified schema nodes are identified by their reversed path from
  the root (head is the node itself, lys_parent drops the head).
* Fallible or possibly non-terminating C loops are run on explicit fuel and
  return Option, with none for a run that did not finish.
-/

/-- Error codes (subset of sr_error_t used by the embedded functions). -/
inductive SrErr where
  | ok
  | invalArg
  | nomem
  | notFound
  | internal
  | io
  | unauthorized
  | locked
  | operationFailed
  | unsupported
deriving DecidableEq, Repr

/-- struct timespec: seconds and nanoseconds, both as mathematical integers. -/
structure Timespec where
  sec : Int
  nsec : Int
deriving DecidableEq, Repr

/-- The constant NANOSEC_THRESHOLD = 10000000 (oper_data_example.c line 285). -/
def NANOSEC_THRESHOLD : Int := 10000000

/-- dm_is_info_copy_uptodate (oper_data_example.c lines 1979-2021, the
HAVE_STAT_ST_MTIM branch): the session copy with load timestamp
`timestamp` is judged up to date (the *res output) against the data file
mtime `mtime`, the engine last_commit_time and the current time `now`.
The condition is written in the source as the negation of the optimized
commit. -/
def dm_is_info_copy_uptodate (last_commit_time mtime now timestamp : Timespec) : Bool :=
  if timestamp.sec ≠ mtime.sec ∨ timestamp.nsec ≠ mtime.nsec
      ∨ (now.sec = mtime.sec ∧ now.nsec - mtime.nsec < NANOSEC_THRESHOLD)
      ∨ timestamp.sec < last_commit_time.sec
      ∨ (timestamp.sec = last_commit_time.sec ∧ timestamp.nsec ≤ last_commit_time.nsec)
      ∨ timestamp.nsec = 0
  then false
  else true

/-- dm_data_info_t as seen by dm_update_session_data_trees: the module name,
the load timestamp of the session copy, the modified flag, whether the data
file could be opened for reading, and the file mtime from stat. -/
structure DmDataInfo where
  name : Nat
  timestamp : Timespec
  modified : Bool
  openable : Bool
  mtime : Timespec
deriving DecidableEq, Repr

/-- dm_update_session_data_trees (oper_data_example.c lines 2023-2105):
walks the loaded modules of the session; modules whose file cannot be
opened are skipped (they stay loaded); up-to-date modified modules are
collected into up_to_date_models; modules whose copy is not up to date are
collected into to_be_refreshed and afterwards deleted from the session.
Returns (up_to_date_models, modules remaining in the session). -/
def dm_update_session_data_trees (last_commit_time now : Timespec) :
    List DmDataInfo → List Nat × List DmDataInfo
  | [] => ([], [])
  | info :: rest =>
    let r := dm_update_session_data_trees last_commit_time now rest
    if info.openable then
      if dm_is_info_copy_uptodate last_commit_time info.mtime now info.timestamp then
        (if info.modified then info.name :: r.1 else r.1, info :: r.2)
      else
        (r.1, r.2)
    else
      (r.1, info :: r.2)

/-- Strict "post-dates" order on timestamps, as used by the spec text. -/
def tsStrictlyLater (a b : Timespec) : Bool :=
  decide (a.sec > b.sec) || (decide (a.sec = b.sec) && decide (a.nsec > b.nsec))

/-- The spec claim C1 rendered literally at one input: the copy is fresh only
if its timestamp strictly post-dates the file mtime, strictly post-dates
last_commit_time, and the file mtime is separated from now by more than the
granularity threshold. -/
def specC1FreshOnlyIf (last_commit_time mtime now timestamp : Timespec) : Bool :=
  tsStrictlyLater timestamp mtime
    && tsStrictlyLater timestamp last_commit_time
    && decide ((now.sec - mtime.sec) * 1000000000 + (now.nsec - mtime.nsec) > NANOSEC_THRESHOLD)

/-- C1 counterexample: the copy loaded at exactly the file mtime (10 s, 5 ns),
with last_commit_time (0,0) and current time (20,0), is judged fresh by
dm_is_info_copy_uptodate, yet its timestamp does not strictly post-date the
file mtime (it equals it), so the claimed necessary condition fails: the
code demands equality with the mtime, not strict post-dating. -/
theorem dm_is_info_copy_uptodate_equal_mtime_cex :
    dm_is_info_copy_uptodate ⟨0, 0⟩ ⟨10, 5⟩ ⟨20, 0⟩ ⟨10, 5⟩ = true
      ∧ tsStrictlyLater ⟨10, 5⟩ ⟨10, 5⟩ = false
      ∧ specC1FreshOnlyIf ⟨0, 0⟩ ⟨10, 5⟩ ⟨20, 0⟩ ⟨10, 5⟩ = false := by
  refine ⟨?_, ?_, ?_⟩ <;> decide

lemma dm_update_retained_not_stale (last_commit_time now : Timespec)
    (mods : List DmDataInfo) (info : DmDataInfo)
    (hopen : info.openable = true)
    (hstale : dm_is_info_copy_uptodate last_commit_time info.mtime now info.timestamp = false) :
    info ∉ (dm_update_session_data_trees last_commit_time now mods).2 := by
  induction mods with
  | nil =>
    simp [dm_update_session_data_trees]
  | cons i rest ih =>
    unfold dm_update_session_data_trees
    by_cases ho : i.openable = true
    · by_cases hu : dm_is_info_copy_uptodate last_commit_time i.mtime now i.timestamp = true
      · simp only [ho, if_true, hu]
        intro hmem
        rcases List.mem_cons.mp hmem with heq | hmem2
        · subst heq
          rw [hu] at hstale
          exact Bool.true_eq_false.mp hstale
        · exact ih hmem2
      · simp only [ho, if_true, Bool.not_eq_true] at hu ⊢
        simp only [hu]
        simpa using ih
    · simp only [Bool.not_eq_true] at ho
      simp only [ho]
      intro hmem
      rcases List.mem_cons.mp hmem with heq | hmem2
      · subst heq
        rw [ho] at hopen
        exact Bool.false_eq_true.mp hopen
      · exact ih hmem2

/-- C1 amended: a session copy is judged fresh iff its timestamp equals the
file mtime exactly (sec and nsec), strictly post-dates last_commit_time,
has nonzero nanoseconds (the no-nanosecond-resolution fallback), and the
current time is not in the same second as the mtime with a nanosecond gap
below the granularity threshold; moreover every openable module judged not
fresh is discarded from the session by dm_update_session_data_trees. -/
theorem dm_is_info_copy_uptodate_spec (last_commit_time mtime now timestamp : Timespec)
    (mods : List DmDataInfo) :
    (dm_is_info_copy_uptodate last_commit_time mtime now timestamp = true ↔
      (timestamp = mtime
        ∧ tsStrictlyLater timestamp last_commit_time = true
        ∧ timestamp.nsec ≠ 0
        ∧ (now.sec ≠ mtime.sec ∨ now.nsec - mtime.nsec ≥ NANOSEC_THRESHOLD)))
    ∧ (∀ info ∈ mods, info.openable = true →
        dm_is_info_copy_uptodate last_commit_time info.mtime now info.timestamp = false →
        info ∉ (dm_update_session_data_trees last_commit_time now mods).2) := by
  constructor
  · obtain ⟨tss, tsn⟩ := timestamp
    obtain ⟨ms, mn⟩ := mtime
    obtain ⟨ns, nn⟩ := now
    obtain ⟨ls, ln⟩ := last_commit_time
    unfold dm_is_info_copy_uptodate tsStrictlyLater
    simp only [Timespec.mk.injEq]
    split
    · rename_i h
      simp only [Bool.false_eq_true, false_iff, Bool.or_eq_true, Bool.and_eq_true,
        decide_eq_true_eq]
      intro hc
      omega
    · rename_i h
      push_neg at h
      simp only [true_iff, Bool.or_eq_true, Bool.and_eq_true, decide_eq_true_eq]
      omega
  · intro info _ hopen hstale
    exact dm_update_retained_not_stale last_commit_time now mods info hopen hstale

/-- Witness for the amended C1 theorem at a concrete input: timestamp equal to
the mtime (3,7), last commit (1,0), now (9,0); the characterization gives
freshness, and a stale openable module (timestamp (0,0)) is discarded. -/
theorem dm_is_info_copy_uptodate_spec_witness :
    dm_is_info_copy_uptodate ⟨1, 0⟩ ⟨3, 7⟩ ⟨9, 0⟩ ⟨3, 7⟩ = true
      ∧ (⟨4, ⟨0, 0⟩, true, true, ⟨3, 7⟩⟩ : DmDataInfo) ∉
          (dm_update_session_data_trees ⟨1, 0⟩ ⟨9, 0⟩ [⟨4, ⟨0, 0⟩, true, true, ⟨3, 7⟩⟩]).2 :=
  ⟨(dm_is_info_copy_uptodate_spec ⟨1, 0⟩ ⟨3, 7⟩ ⟨9, 0⟩ ⟨3, 7⟩ []).1.mpr
      ⟨rfl, by decide, by decide, by decide⟩,
    (dm_is_info_copy_uptodate_spec ⟨1, 0⟩ ⟨3, 7⟩ ⟨9, 0⟩ ⟨3, 7⟩
        [⟨4, ⟨0, 0⟩, true, true, ⟨3, 7⟩⟩]).2
      ⟨4, ⟨0, 0⟩, true, true, ⟨3, 7⟩⟩ (by decide) rfl (by decide)⟩

/-- dm_node_state_t: per schema node enablement state; dm_get_node_state
returns DM_NODE_DISABLED for nodes without attached state. -/
inductive DmNodeState where
  | DISABLED
  | ENABLED
  | ENABLED_WITH_CHILDREN
deriving DecidableEq, Repr

/-- The schema nodetypes relevant to the embedded walks (LYS_*). -/
inductive LysNodeType where
  | CONTAINER
  | LIST
  | LEAF
  | LEAFLIST
  | ANYXML
deriving DecidableEq, Repr

/-- dm_is_node_enabled (oper_data_example.c lines 1189-1194). -/
def dm_is_node_enabled (s : DmNodeState) : Bool :=
  s == .ENABLED || s == .ENABLED_WITH_CHILDREN

/-- dm_is_node_enabled_with_children (oper_data_example.c lines 1196-1200). -/
def dm_is_node_enabled_with_children (s : DmNodeState) : Bool :=
  s == .ENABLED_WITH_CHILDREN

/-- The LYS_CONTAINER | LYS_LIST | LYS_LEAF | LYS_LEAFLIST mask. -/
def isConfigDataNode (t : LysNodeType) : Bool :=
  t == .CONTAINER || t == .LIST || t == .LEAF || t == .LEAFLIST

/-- The LYS_CONTAINER | LYS_LIST mask. -/
def isContainerOrList (t : LysNodeType) : Bool :=
  t == .CONTAINER || t == .LIST

/-- A data-tree node (struct lyd_node) carrying what the embedded walks read:
the identity of its schema node (reversed path from the root, so lys_parent
is List.tail), the enablement state dm_get_node_state returns for that
schema node, its schema nodetype, and its children in order. -/
inductive LydNode where
  | node (schema : List Nat) (state : DmNodeState) (ntype : LysNodeType)
      (children : List LydNode)

def LydNode.schema : LydNode → List Nat
  | .node s _ _ _ => s

def LydNode.state : LydNode → DmNodeState
  | .node _ st _ _ => st

def LydNode.ntype : LydNode → LysNodeType
  | .node _ _ t _ => t

def LydNode.children : LydNode → List LydNode
  | .node _ _ _ cs => cs

/-- The stack loop of dm_has_not_enabled_nodes (oper_data_example.c lines
1518-1535), run on explicit fuel. One iteration reads the top of the stack
(stack->data[stack->count - 1]); a disabled top makes the function report
true; an enabled top that is a container or list and not
ENABLED_WITH_CHILDREN appends all its children (the inner nodetype filter
at line 1525 tests iter, which is a container/list, so every child is
pushed). The source never removes the inspected top from the stack, so the
loop only terminates when it reports true or the stack is empty; none
models a run that did not finish. -/
def dmStackLoopRun : Nat → List LydNode → Option Bool
  | 0, _ => none
  | fuel + 1, stack =>
    match stack.getLast? with
    | none => some false
    | some top =>
      if dm_is_node_enabled top.state then
        if ¬ dm_is_node_enabled_with_children top.state = true
            ∧ isContainerOrList top.ntype = true then
          dmStackLoopRun fuel (stack ++ top.children)
        else
          dmStackLoopRun fuel stack
      else
        some true

/-- The top-level loop of dm_has_not_enabled_nodes (lines 1496-1516):
scans the top-level siblings; a disabled node of config-data type reports
true immediately (none here); otherwise the children of every enabled
non-ENABLED_WITH_CHILDREN container/list are pushed, in order, onto the
stack that the second loop will process. -/
def dmTopLevelScan : List LydNode → Option (List LydNode)
  | [] => some []
  | n :: rest =>
    if isConfigDataNode n.ntype then
      if dm_is_node_enabled n.state then
        let pushed :=
          if ¬ dm_is_node_enabled_with_children n.state = true
              ∧ isContainerOrList n.ntype = true then n.children else []
        match dmTopLevelScan rest with
        | none => none
        | some s => some (pushed ++ s)
      else none
    else dmTopLevelScan rest

/-- dm_has_not_enabled_nodes (oper_data_example.c lines 1485-1541) on fuel:
some true / some false is the *res output of a terminating run, none a run
that did not finish. -/
def dm_has_not_enabled_nodes (fuel : Nat) (tops : List LydNode) : Option Bool :=
  match dmTopLevelScan tops with
  | none => some true
  | some stack => dmStackLoopRun fuel stack

/-- One modified module as seen by dm_commit_load_modified_models: its name,
modified flag, the outcome of dm_commit_lock_model for it, and the
top-level siblings of its data tree. -/
structure CommitModule where
  name : Nat
  modified : Bool
  lockResult : SrErr
  tree : List LydNode

/-- First loop of dm_commit_load_modified_models (oper_data_example.c lines
2548-2569): lock every modified module and, when the session datastore is
candidate, run dm_has_not_enabled_nodes on its tree; a reported not-enabled
node aborts with SR_ERR_OPERATION_FAILED. Returns none when the enablement
check does not terminate. -/
def dmCommitLockPhase (fuel : Nat) (candidate : Bool) :
    List CommitModule → Option SrErr
  | [] => some .ok
  | m :: rest =>
    if m.modified then
      if m.lockResult ≠ .ok then some m.lockResult
      else if candidate then
        match dm_has_not_enabled_nodes fuel m.tree with
        | none => none
        | some true => some .operationFailed
        | some false => dmCommitLockPhase fuel candidate rest
      else dmCommitLockPhase fuel candidate rest
    else dmCommitLockPhase fuel candidate rest

/-- dm_commit_load_modified_models (oper_data_example.c lines 2535-2676):
the locking/enablement loop runs to completion before the second loop opens
any data file, so the result also reports how many data files were opened
(c_ctx->modif_count); a failure in the first loop returns with zero files
opened, and none models a commit stuck inside the enablement check. -/
def dm_commit_load_modified_models (fuel : Nat) (candidate : Bool)
    (mods : List CommitModule) : Option (SrErr × Nat) :=
  match dmCommitLockPhase fuel candidate mods with
  | none => none
  | some .ok => some (.ok, (mods.filter (fun m => m.modified)).length)
  | some e => some (e, 0)

/-- The failing input for C2: a candidate tree whose single top-level node is
an ENABLED container with one ENABLED_WITH_CHILDREN child container; every
node of the tree is (effectively) enabled, so the commit must not fail. -/
def cexEnabledTree : List LydNode :=
  [.node [1] .ENABLED .CONTAINER [.node [2, 1] .ENABLED_WITH_CHILDREN .CONTAINER []]]

lemma dmStackLoop_stuck_on_ewc_child (fuel : Nat) :
    dmStackLoopRun fuel [LydNode.node [2, 1] .ENABLED_WITH_CHILDREN .CONTAINER []] = none := by
  induction fuel with
  | zero => rfl
  | succ n ih =>
    unfold dmStackLoopRun
    simp only [List.getLast?_singleton]
    norm_num [dm_is_node_enabled, dm_is_node_enabled_with_children]
    exact ih

/-- C2 (code bug): on a candidate commit of a module whose tree is entirely
enabled (top-level ENABLED container with an ENABLED_WITH_CHILDREN child),
the claim requires the commit to proceed (no schema ancestry contains a
DISABLED step), but dm_commit_load_modified_models never returns for any
amount of fuel: the stack loop of dm_has_not_enabled_nodes reads
stack->data[stack->count - 1] without ever removing it (the analogous loop
at line 3245 does sr_list_rm_at), so the enabled child is re-inspected
forever. -/
theorem dm_commit_candidate_enabled_check_diverges (fuel : Nat) :
    dm_commit_load_modified_models fuel true [⟨1, true, .ok, cexEnabledTree⟩] = none := by
  have hscan : dmTopLevelScan cexEnabledTree =
      some [LydNode.node [2, 1] .ENABLED_WITH_CHILDREN .CONTAINER []] := by rfl
  unfold dm_commit_load_modified_models dmCommitLockPhase
  norm_num [dm_has_not_enabled_nodes, hscan, dmStackLoop_stuck_on_ewc_child fuel]

/-- The constant DM_COMMIT_CTX_ID_INVALID = 0 (oper_data_example.c line 272). -/
def DM_COMMIT_CTX_ID_INVALID : Nat := 0

/-- The constant DM_COMMIT_CTX_ID_MAX_ATTEMPTS = 100 (oper_data_example.c line 274). -/
def DM_COMMIT_CTX_ID_MAX_ATTEMPTS : Nat := 100

/-- The id-generation loop of dm_commit_prepare_context (oper_data_example.c
lines 2420-2432): `registered` is the set of ids present in
dm_ctx->commit_ctxs.tree, `draws` the successive values of rand(), and
`attempts` the counter. Each iteration takes a draw, resets it to
DM_COMMIT_CTX_ID_INVALID when it collides with a registered context, bumps
the attempt counter, gives up with SR_ERR_INTERNAL (none) once the counter
exceeds DM_COMMIT_CTX_ID_MAX_ATTEMPTS, and otherwise loops while the id is
invalid. An exhausted draw stream also maps to none (rand never runs out in
C; all theorems quantify over arbitrary streams). -/
def dm_commit_ctx_id_gen (registered : List Nat) : List Nat → Nat → Option Nat
  | [], _ => none
  | d :: rest, attempts =>
    let id := if d ∈ registered then DM_COMMIT_CTX_ID_INVALID else d
    if attempts + 1 > DM_COMMIT_CTX_ID_MAX_ATTEMPTS then none
    else if id = DM_COMMIT_CTX_ID_INVALID then dm_commit_ctx_id_gen registered rest (attempts + 1)
    else some id

lemma dm_commit_ctx_id_gen_fresh (registered : List Nat) :
    ∀ (draws : List Nat) (attempts : Nat) (id : Nat),
      dm_commit_ctx_id_gen registered draws attempts = some id →
      id ∉ registered ∧ id ≠ DM_COMMIT_CTX_ID_INVALID := by
  intro draws
  induction draws with
  | nil => intro attempts id h; exact absurd h (by simp [dm_commit_ctx_id_gen])
  | cons d rest ih =>
    intro attempts id h
    unfold dm_commit_ctx_id_gen at h
    by_cases hb : attempts + 1 > DM_COMMIT_CTX_ID_MAX_ATTEMPTS
    · simp [hb] at h
    · simp only [hb, if_false] at h
      by_cases hc : d ∈ registered
      · simp only [hc, if_true, if_pos rfl] at h
        exact ih (attempts + 1) id h
      · simp only [hc, if_false] at h
        by_cases hz : d = DM_COMMIT_CTX_ID_INVALID
        · simp only [hz, if_pos rfl] at h
          exact ih (attempts + 1) id h
        · simp only [hz, if_false, Option.some.injEq] at h
          subst h
          exact ⟨hc, hz⟩

lemma dm_commit_ctx_id_gen_collides (registered : List Nat) :
    ∀ (draws : List Nat) (attempts : Nat),
      (∀ d ∈ draws, d ∈ registered ∨ d = DM_COMMIT_CTX_ID_INVALID) →
      dm_commit_ctx_id_gen registered draws attempts = none := by
  intro draws
  induction draws with
  | nil => intro attempts _; rfl
  | cons d rest ih =>
    intro attempts hall
    unfold dm_commit_ctx_id_gen
    by_cases hb : attempts + 1 > DM_COMMIT_CTX_ID_MAX_ATTEMPTS
    · simp [hb]
    · have hd : (if d ∈ registered then DM_COMMIT_CTX_ID_INVALID else d)
          = DM_COMMIT_CTX_ID_INVALID := by
        rcases hall d (List.mem_cons_self d rest) with hm | hz
        · simp [hm]
        · simp [hz]
      simp only [hb, if_false, hd, if_pos rfl]
      exact ih (attempts + 1) (fun x hx => hall x (List.mem_cons_of_mem d hx))

/-- C3: the commit-context id drawn by dm_commit_prepare_context never
collides with a registered context (a collision forces a re-roll via
DM_COMMIT_CTX_ID_INVALID), so inserting the new context preserves the
pairwise distinctness of the registered ids; and when every draw collides
or is the invalid id, the loop gives up with SR_ERR_INTERNAL (none) instead
of registering a duplicate. -/
theorem dm_commit_ctx_id_unique (registered draws : List Nat) :
    (∀ id : Nat, dm_commit_ctx_id_gen registered draws 0 = some id →
      id ∉ registered ∧ id ≠ DM_COMMIT_CTX_ID_INVALID ∧
        (registered.Nodup → (id :: registered).Nodup))
    ∧ ((∀ d ∈ draws, d ∈ registered ∨ d = DM_COMMIT_CTX_ID_INVALID) →
        dm_commit_ctx_id_gen registered draws 0 = none) := by
  constructor
  · intro id h
    obtain ⟨hni, hnz⟩ := dm_commit_ctx_id_gen_fresh registered draws 0 id h
    exact ⟨hni, hnz, fun hd => List.nodup_cons.mpr ⟨hni, hd⟩⟩
  · intro hall
    exact dm_commit_ctx_id_gen_collides registered draws 0 hall

/-- Witness for C3 at concrete inputs: with contexts {3, 5} registered, the
draw stream [3, 7] yields id 7, fresh and non-invalid, keeping the registry
duplicate-free; the all-colliding stream [3, 0, 5] yields the give-up
(none). -/
theorem dm_commit_ctx_id_unique_witness :
    (7 ∉ [3, 5] ∧ 7 ≠ DM_COMMIT_CTX_ID_INVALID ∧ ([3, 5].Nodup → [7, 3, 5].Nodup))
      ∧ dm_commit_ctx_id_gen [3, 5] [3, 0, 5] 0 = none :=
  ⟨(dm_commit_ctx_id_unique [3, 5] [3, 7]).1 7 (by decide),
    (dm_commit_ctx_id_unique [3, 5] [3, 0, 5]).2 (by decide)⟩

/-- One modified module as seen by dm_commit_write_files: its name, the
modified flag, whether the merged data info is found in the commit session,
and the outcomes of the ftruncate / lyd_print_fd / fsync steps. -/
structure WriteModule where
  name : Nat
  modified : Bool
  mergedFound : Bool
  truncateOk : Bool
  printOk : Bool
  fsyncOk : Bool
deriving DecidableEq, Repr

/-- All three write steps of one module succeed (and its merged info exists). -/
def writeSucceeds (m : WriteModule) : Bool :=
  m.mergedFound && m.truncateOk && m.printOk && m.fsyncOk

/-- dm_commit_write_files (oper_data_example.c lines 2678-2723): iterate the
session modules in order; for each modified one, a missing merged info or a
failed ftruncate/print/fsync records SR_ERR_INTERNAL in rc and the loop
continues with the next module; a module whose steps all succeed has its
data written. Returns the final rc and the names of the modules whose data
was written, in order. -/
def dm_commit_write_files : List WriteModule → SrErr → SrErr × List Nat
  | [], rc => (rc, [])
  | m :: rest, rc =>
    if m.modified then
      if ¬ m.mergedFound = true then dm_commit_write_files rest .internal
      else
        let ok := m.truncateOk && m.printOk && m.fsyncOk
        let rcNext := if ok then rc else .internal
        let r := dm_commit_write_files rest rcNext
        (r.1, if ok then m.name :: r.2 else r.2)
    else dm_commit_write_files rest rc

/-- A module write fails (merged info missing or a write step fails). -/
def writeFails (m : WriteModule) : Bool :=
  m.modified && ! writeSucceeds m

/-- The spec claim C4 rendered at one input: after a modified module whose
write fails, none of the remaining modules is written (the engine "aborts
the remaining modules"). -/
def specC4RemainingAborted : List WriteModule → List Nat → Bool
  | [], _ => true
  | m :: rest, written =>
    if writeFails m then rest.all (fun m2 => ! written.contains m2.name)
    else specC4RemainingAborted rest written

/-- C4 counterexample: module 1 fails its fsync, module 2 writes cleanly; the
engine reports SR_ERR_INTERNAL but still writes module 2, so the remaining
modules are not aborted as the claim states. -/
theorem dm_commit_write_files_no_abort_cex :
    dm_commit_write_files
        [⟨1, true, true, true, true, false⟩, ⟨2, true, true, true, true, true⟩] .ok
      = (.internal, [2])
    ∧ specC4RemainingAborted
        [⟨1, true, true, true, true, false⟩, ⟨2, true, true, true, true, true⟩]
        (dm_commit_write_files
          [⟨1, true, true, true, true, false⟩, ⟨2, true, true, true, true, true⟩] .ok).2
      = false := by
  constructor <;> decide

lemma dm_commit_write_files_general (mods : List WriteModule) :
    ∀ rc : SrErr,
      (dm_commit_write_files mods rc).1 = (if mods.any writeFails then .internal else rc)
      ∧ (dm_commit_write_files mods rc).2 =
          (mods.filter (fun m => m.modified && writeSucceeds m)).map (fun m => m.name) := by
  induction mods with
  | nil => intro rc; simp [dm_commit_write_files]
  | cons m rest ih =>
    intro rc
    obtain ⟨ihr1, ihr2⟩ := ih rc
    obtain ⟨ihi1, ihi2⟩ := ih SrErr.internal
    cases hm : m.modified
    · have hw : writeFails m = false := by simp [writeFails, hm]
      simp [dm_commit_write_files, hm, hw, ihr1, ihr2, List.any_cons, List.filter_cons]
    · cases hf : m.mergedFound
      · have hw : writeFails m = true := by simp [writeFails, writeSucceeds, hm, hf]
        have hs : writeSucceeds m = false := by simp [writeSucceeds, hf]
        simp [dm_commit_write_files, hm, hf, hw, hs, ihi1, ihi2, List.any_cons,
          List.filter_cons]
      · cases hok : (m.truncateOk && m.printOk && m.fsyncOk)
        · have hs : writeSucceeds m = false := by
            simp only [Bool.and_eq_false_iff] at hok
            simp only [writeSucceeds, hf, Bool.true_and, Bool.and_eq_false_iff]
            exact hok
          have hw : writeFails m = true := by simp [writeFails, hm, hs]
          simp [dm_commit_write_files, hm, hf, hok, hw, hs, ihi1, ihi2, List.any_cons,
            List.filter_cons]
        · have hs : writeSucceeds m = true := by
            simp only [Bool.and_eq_true] at hok
            simp [writeSucceeds, hf, hok.1.1, hok.1.2, hok.2]
          have hw : writeFails m = false := by simp [writeFails, hs]
          simp [dm_commit_write_files, hm, hf, hok, hw, hs, ihr1, ihr2, List.any_cons,
            List.filter_cons]

/-- C4 amended: a failed serialization or fsync of one modified module makes
the commit report SR_ERR_INTERNAL, but the engine continues with the
remaining modules instead of aborting them: exactly the modules whose own
steps succeed are written, in order, independent of failures of other
modules, and already-written modules are left as written. -/
theorem dm_commit_write_files_spec (mods : List WriteModule) :
    ((dm_commit_write_files mods .ok).1 = .internal ↔ ∃ m ∈ mods, writeFails m = true)
    ∧ (dm_commit_write_files mods .ok).2 =
        (mods.filter (fun m => m.modified && writeSucceeds m)).map (fun m => m.name) := by
  obtain ⟨h1, h2⟩ := dm_commit_write_files_general mods .ok
  refine ⟨?_, h2⟩
  rw [h1]
  by_cases ha : mods.any writeFails = true
  · simp only [ha, if_true, true_iff]
    obtain ⟨m, hm, hf⟩ := List.any_eq_true.mp ha
    exact ⟨m, hm, hf⟩
  · simp only [Bool.not_eq_true] at ha
    simp only [ha, Bool.false_eq_true, if_false]
    constructor
    · intro h; exact absurd h (by decide)
    · intro ⟨m, hm, hf⟩
      have := List.any_eq_true.mpr ⟨m, hm, hf⟩
      rw [ha] at this
      exact absurd this (by decide)

/-- The first loop of dm_match_subscription: walk a schema node (reversed
path, lys_parent = tail) up towards the root looking for a pointer-equal
target node; contains the start node itself. -/
def lysUpChainContains : List Nat → List Nat → Bool
  | [], _ => false
  | x :: rest, target => ((x :: rest) == target) || lysUpChainContains rest target

mutual
/-- The LY_TREE_DFS walk of dm_match_subscription (lines 2172-2179): does the
data subtree rooted at the node contain a node with the given schema? -/
def lydSubtreeContains : LydNode → List Nat → Bool
  | .node s _ _ cs, target => (s == target) || lydListSubtreeContains cs target

def lydListSubtreeContains : List LydNode → List Nat → Bool
  | [], _ => false
  | c :: rest, target => lydSubtreeContains c target || lydListSubtreeContains rest target
end

/-- dm_match_subscription (oper_data_example.c lines 2131-2186): sub_node is
the schema node of the subscription xpath (none when the subscription has
no xpath), node the changed data node of the diff entry. A NULL sub_node
matches; otherwise match if sub_node appears on the lys_parent chain of the
node schema; otherwise, for a container or list node, if the node schema
appears on the lys_parent chain of sub_node, match iff the DFS over the
node subtree finds a node with the subscribed schema. -/
def dm_match_subscription (sub_node : Option (List Nat)) (node : LydNode) : Bool :=
  match sub_node with
  | none => true
  | some s =>
    if lysUpChainContains node.schema s then true
    else if isContainerOrList node.ntype then
      if lysUpChainContains s node.schema then lydSubtreeContains node s else false
    else false

/-- LYD_DIFFTYPE (libyang lyd_difflist entry kinds). -/
inductive LydDiffType where
  | END
  | DELETED
  | CHANGED
  | MOVEDAFTER1
  | CREATED
  | MOVEDAFTER2
deriving DecidableEq, Repr

/-- One lyd_difflist entry: the kind and the first/second node pointers. -/
structure DiffEntry where
  dtype : LydDiffType
  first : Option LydNode
  second : Option LydNode

/-- dm_get_notification_match_node (oper_data_example.c lines 2194-2212):
which node of the diff entry is tested against the subscription. -/
def dm_get_notification_match_node (d : DiffEntry) : Option LydNode :=
  match d.dtype with
  | .MOVEDAFTER2 | .CREATED => d.second
  | .MOVEDAFTER1 | .CHANGED | .DELETED => d.first
  | .END => none

/-- The spec claim C5 rendered literally: the match holds exactly when the
subscription has no xpath, or S is D or an ancestor of D, or D is an
ancestor of S, the diff entry is CREATED or DELETED on D, and the walk of
the affected subtree finds a node whose schema is S. -/
def specC5Matches (sub_node : Option (List Nat)) (dtype : LydDiffType) (node : LydNode) : Bool :=
  match sub_node with
  | none => true
  | some s =>
    lysUpChainContains node.schema s
      || (lysUpChainContains s node.schema
          && (dtype == .CREATED || dtype == .DELETED)
          && lydSubtreeContains node s)

/-- The changed node of the C5 counterexample: a user-ordered list (schema
path [1]) with one child leaf of schema path [2, 1]. -/
def cexMovedListNode : LydNode :=
  .node [1] .ENABLED .LIST [.node [2, 1] .ENABLED .LEAF []]

/-- The C5 counterexample diff entry: a MOVEDAFTER1 entry on that list. -/
def cexMovedDiff : DiffEntry :=
  ⟨.MOVEDAFTER1, some cexMovedListNode, none⟩

/-- C5 counterexample: for a MOVEDAFTER1 diff entry on a list D with a
subscription at a leaf S below D, the node tested is diff->first (the list
itself) and dm_match_subscription matches, although the entry is neither
CREATED nor DELETED, so the claimed characterization evaluates to false:
the code never consults the diff kind when walking the affected subtree. -/
theorem dm_match_subscription_moved_cex :
    dm_get_notification_match_node cexMovedDiff = some cexMovedListNode
      ∧ dm_match_subscription (some [2, 1]) cexMovedListNode = true
      ∧ specC5Matches (some [2, 1]) cexMovedDiff.dtype cexMovedListNode = false :=
  ⟨rfl, by decide, by decide⟩

/-- C5 amended: for a subscription with schema node S and a diff entry whose
tested node has schema D, the match predicate holds exactly when S is D or
an ancestor of D, or D is a container or list, D is an ancestor of S, and
walking the affected subtree finds a node whose schema is S — regardless of
the diff entry kind; a subscription without an xpath matches every entry. -/
theorem dm_match_subscription_spec (sub_node : Option (List Nat)) (d : DiffEntry)
    (node : LydNode) (_hnode : dm_get_notification_match_node d = some node) :
    dm_match_subscription sub_node node = true ↔
      (sub_node = none
        ∨ ∃ s, sub_node = some s
            ∧ (lysUpChainContains node.schema s = true
              ∨ (isContainerOrList node.ntype = true
                  ∧ lysUpChainContains s node.schema = true
                  ∧ lydSubtreeContains node s = true))) := by
  clear _hnode
  cases sub_node with
  | none => simp [dm_match_subscription]
  | some s =>
    constructor
    · intro hm
      simp only [dm_match_subscription] at hm
      split_ifs at hm with h1 h2 h3
      · exact Or.inr ⟨s, rfl, Or.inl h1⟩
      · exact Or.inr ⟨s, rfl, Or.inr ⟨h2, h3, hm⟩⟩
    · intro hd
      rcases hd with hn | ⟨t, ht, hd⟩
      · exact absurd hn (by simp)
      · injection ht with ht2
        subst ht2
        simp only [dm_match_subscription]
        split_ifs with h1 h2 h3
        · rfl
        · rcases hd with hd | hd
          · exact absurd hd h1
          · exact hd.2.2
        · rcases hd with hd | hd
          · exact absurd hd h1
          · exact absurd hd.2.1 h3
        · rcases hd with hd | hd
          · exact absurd hd h1
          · exact absurd hd.1 h2

/-- Witness for the amended C5 theorem: a subscription without an xpath
matches the MOVEDAFTER1 entry of the counterexample list node. -/
theorem dm_match_subscription_spec_witness :
    dm_match_subscription none cexMovedListNode = true :=
  (dm_match_subscription_spec none cexMovedDiff cexMovedListNode rfl).mpr (Or.inl rfl)

/-- np_subscription_t as seen by the notify pass: an identifier (destination)
and the priority. -/
structure NpSubscription where
  dst : Nat
  priority : Nat
deriving DecidableEq, Repr

/-- dm_subs_cmp (oper_data_example.c lines 2265-2278): qsort comparator, 0 on
equal priorities, 1 when b has the higher priority, -1 otherwise, so that
sorting ascending by this comparator orders subscriptions by descending
priority. -/
def dm_subs_cmp (a b : NpSubscription) : Int :=
  if b.priority == a.priority then 0
  else if b.priority > a.priority then 1
  else -1

/-- The qsort(ms->subscriptions, ..., dm_subs_cmp) call of
dm_prepare_module_subscriptions (line 2299): the per-module subscription
snapshot ordered so that dm_subs_cmp never orders a later element before an
earlier one. -/
def dm_prepare_module_subscriptions (subs : List NpSubscription) : List NpSubscription :=
  subs.mergeSort (fun a b => decide (dm_subs_cmp a b ≤ 0))

/-- The notify pass of dm_commit_notify (lines 2800-2828): the sorted
per-module snapshot is walked in order (s = 0 .. subscription_cnt-1) and
exactly the matched subscriptions are notified, in that order. -/
def dm_commit_notify_order (subs : List NpSubscription)
    (matched : NpSubscription → Bool) : List NpSubscription :=
  (dm_prepare_module_subscriptions subs).filter matched

lemma dm_subs_cmp_nonpos (a b : NpSubscription) :
    dm_subs_cmp a b ≤ 0 ↔ b.priority ≤ a.priority := by
  unfold dm_subs_cmp
  split_ifs with h1 h2
  · simp only [beq_iff_eq] at h1
    rw [h1]
    simp
  · constructor
    · intro h; exact absurd h (by norm_num)
    · intro h; omega
  · simp only [beq_iff_eq] at h1
    constructor
    · intro _; omega
    · intro _; norm_num

lemma dm_subs_cmp_le_total (a b : NpSubscription) :
    (decide (dm_subs_cmp a b ≤ 0) || decide (dm_subs_cmp b a ≤ 0)) = true := by
  simp only [Bool.or_eq_true, decide_eq_true_eq, dm_subs_cmp_nonpos]
  omega

lemma dm_subs_cmp_le_trans (a b c : NpSubscription) :
    decide (dm_subs_cmp a b ≤ 0) = true → decide (dm_subs_cmp b c ≤ 0) = true →
    decide (dm_subs_cmp a c ≤ 0) = true := by
  simp only [decide_eq_true_eq, dm_subs_cmp_nonpos]
  omega

lemma dm_subs_cmp_le_means_ge (a b : NpSubscription) :
    decide (dm_subs_cmp a b ≤ 0) = true → b.priority ≤ a.priority := by
  simp only [decide_eq_true_eq, dm_subs_cmp_nonpos]
  exact id

/-- C6: within the notify pass of one commit, the per-module snapshot is a
permutation of the registered subscriptions sorted by non-increasing
priority, and the notified subscriptions (the matched ones, delivered in
snapshot order) therefore fire in non-increasing priority, for every match
predicate. -/
theorem dm_commit_notify_priority_order (subs : List NpSubscription)
    (matched : NpSubscription → Bool) :
    (dm_prepare_module_subscriptions subs).Perm subs
    ∧ List.Pairwise (fun a b => b.priority ≤ a.priority)
        (dm_prepare_module_subscriptions subs)
    ∧ List.Pairwise (fun a b => b.priority ≤ a.priority)
        (dm_commit_notify_order subs matched) := by
  have hsorted : List.Pairwise (fun a b => b.priority ≤ a.priority)
      (dm_prepare_module_subscriptions subs) := by
    have hp := @List.sorted_mergeSort NpSubscription
      (fun a b : NpSubscription => decide (dm_subs_cmp a b ≤ 0))
      dm_subs_cmp_le_trans dm_subs_cmp_le_total subs
    exact List.Pairwise.imp (fun h => dm_subs_cmp_le_means_ge _ _ h) hp
  exact ⟨List.mergeSort_perm subs _, hsorted,
    List.Pairwise.filter matched hsorted⟩

/-- The lock-relevant state of dm_ctx and one dm session: the datastore-wide
flag dm_ctx->ds_lock, the session flag holds_ds_lock, and the lock files
held by the session (session->locked_files, identified by module name). -/
structure DmLockState where
  ds_lock : Bool
  holds_ds_lock : Bool
  locked_files : List Nat
deriving DecidableEq, Repr

/-- dm_lock_module (oper_data_example.c lines 875-914) for the fixed session:
ok without change when the session already holds the lock file; otherwise
SR_ERR_UNAUTHORIZED when the data file is not accessible to the user,
SR_ERR_LOCKED when another session holds the lock, and otherwise the lock
file is acquired and recorded in session->locked_files. `others` is the set
of modules locked by other sessions and `authorized` the modules the user
credentials may lock. -/
def dm_lock_module (others authorized : List Nat) (held : List Nat) (m : Nat) :
    SrErr × List Nat :=
  if m ∈ held then (.ok, held)
  else if m ∉ authorized then (.unauthorized, held)
  else if m ∈ others then (.locked, held)
  else (.ok, m :: held)

/-- dm_unlock_module (oper_data_example.c lines 916-949), the success path
used from the rollback of dm_lock_datastore: remove the lock file from
session->locked_files. -/
def dm_unlock_module (held : List Nat) (m : Nat) : List Nat :=
  held.erase m

/-- The module loop of dm_lock_datastore (lines 977-998): iterate the listed
schemas, skip unauthorized modules, remember each successfully locked
module in `locked`, and on any other failure unlock every module in
`locked` and report the offending error; returns the error code and the
session lock files after the loop. -/
def dmLockDatastoreLoop (others authorized : List Nat) :
    List Nat → List Nat → List Nat → SrErr × List Nat
  | [], _, held => (.ok, held)
  | m :: rest, locked, held =>
    let r := dm_lock_module others authorized held m
    if r.1 = .unauthorized then dmLockDatastoreLoop others authorized rest locked held
    else if r.1 = .ok then dmLockDatastoreLoop others authorized rest (locked ++ [m]) r.2
    else (r.1, locked.foldl dm_unlock_module held)

/-- dm_lock_datastore (oper_data_example.c lines 951-1003): fail with
SR_ERR_LOCKED when the datastore lock is already held; otherwise take the
datastore lock, lock every schema in order, and on a module-lock failure
release every module locked by the call and the datastore lock before
returning the offending error. -/
def dm_lock_datastore (st : DmLockState) (others authorized schemas : List Nat) :
    SrErr × DmLockState :=
  if st.ds_lock then (.locked, st)
  else
    let r := dmLockDatastoreLoop others authorized schemas [] st.locked_files
    if r.1 = .ok then (.ok, ⟨true, true, r.2⟩)
    else (r.1, ⟨false, false, r.2⟩)

lemma foldl_unlock_cons_of_not_mem (locked : List Nat) :
    ∀ (held : List Nat) (m : Nat), m ∉ locked →
      locked.foldl dm_unlock_module (m :: held) = m :: locked.foldl dm_unlock_module held := by
  induction locked with
  | nil => intro held m _; rfl
  | cons l rest ih =>
    intro held m hm
    have hne : l ≠ m := fun e => hm (by rw [e]; exact List.mem_cons_self m rest)
    have hstep : dm_unlock_module (m :: held) l = m :: dm_unlock_module held l := by
      unfold dm_unlock_module
      exact List.erase_cons_tail (by simp only [beq_iff_eq]; exact fun e => hne e.symm)
    simp only [List.foldl_cons, hstep]
    exact ih (dm_unlock_module held l) m (fun h => hm (List.mem_cons_of_mem l h))

lemma foldl_unlock_subset (locked : List Nat) :
    ∀ held : List Nat, locked.foldl dm_unlock_module held ⊆ held := by
  induction locked with
  | nil => intro held; exact fun x h => h
  | cons l rest ih =>
    intro held
    intro x hx
    have hmem := ih (dm_unlock_module held l) hx
    exact List.mem_of_mem_erase hmem

lemma dmLockDatastoreLoop_fail_subset (others authorized : List Nat) :
    ∀ (schemas locked held : List Nat),
      (∀ l ∈ locked, l ∈ held) →
      (dmLockDatastoreLoop others authorized schemas locked held).1 ≠ .ok →
      (dmLockDatastoreLoop others authorized schemas locked held).2 ⊆
        locked.foldl dm_unlock_module held := by
  intro schemas
  induction schemas with
  | nil =>
    intro locked held _ hfail
    exact absurd rfl hfail
  | cons m rest ih =>
    intro locked held hsub hfail
    unfold dmLockDatastoreLoop at hfail ⊢
    by_cases hu : (dm_lock_module others authorized held m).1 = .unauthorized
    · simp only [hu, if_true] at hfail ⊢
      exact ih locked held hsub hfail
    · simp only [hu, if_false] at hfail ⊢
      by_cases hok : (dm_lock_module others authorized held m).1 = .ok
      · simp only [hok, if_true] at hfail ⊢
        by_cases hmem : m ∈ held
        · have hsame : (dm_lock_module others authorized held m).2 = held := by
            unfold dm_lock_module
            simp [hmem]
          rw [hsame] at hfail ⊢
          have hsub2 : ∀ l ∈ locked ++ [m], l ∈ held := by
            intro l hl
            rcases List.mem_append.mp hl with h | h
            · exact hsub l h
            · rw [List.mem_singleton.mp h]; exact hmem
          have := ih (locked ++ [m]) held hsub2 hfail
          refine this.trans ?_
          rw [List.foldl_append]
          exact foldl_unlock_subset [m] (locked.foldl dm_unlock_module held)
        · have hnew : (dm_lock_module others authorized held m).2 = m :: held := by
            unfold dm_lock_module at hok ⊢
            simp only [hmem, if_false] at hok ⊢
            by_cases ha : m ∉ authorized
            · simp [ha] at hok
            · simp only [ha, if_false] at hok ⊢
              by_cases hoth : m ∈ others
              · simp [hoth] at hok
              · simp [hoth]
          rw [hnew] at hfail ⊢
          have hmnl : m ∉ locked := fun h => hmem (hsub m h)
          have hsub2 : ∀ l ∈ locked ++ [m], l ∈ m :: held := by
            intro l hl
            rcases List.mem_append.mp hl with h | h
            · exact List.mem_cons_of_mem m (hsub l h)
            · rw [List.mem_singleton.mp h]; exact List.mem_cons_self m held
          have hind := ih (locked ++ [m]) (m :: held) hsub2 hfail
          refine hind.trans ?_
          rw [List.foldl_append]
          simp only [List.foldl_cons, List.foldl_nil]
          rw [foldl_unlock_cons_of_not_mem locked held m hmnl]
          unfold dm_unlock_module
          rw [List.erase_cons_head]
          exact fun x h => h
      · simp only [hok, if_false] at hfail ⊢
        exact fun x h => h

/-- C7: the datastore-wide lock operation is all-or-none: whenever
dm_lock_datastore returns a non-OK error, no module lock acquired by the
call remains held (the session lock files are a subset of what the session
held before), the datastore lock flag is as before, and the session does
not newly hold the datastore lock. -/
theorem dm_lock_datastore_all_or_none (st : DmLockState)
    (others authorized schemas : List Nat)
    (hinv : st.holds_ds_lock = true → st.ds_lock = true)
    (hfail : (dm_lock_datastore st others authorized schemas).1 ≠ .ok) :
    (dm_lock_datastore st others authorized schemas).2.locked_files ⊆ st.locked_files
    ∧ (dm_lock_datastore st others authorized schemas).2.ds_lock = st.ds_lock
    ∧ (dm_lock_datastore st others authorized schemas).2.holds_ds_lock = st.holds_ds_lock := by
  cases hds : st.ds_lock with
  | true =>
    have heq : dm_lock_datastore st others authorized schemas = (.locked, st) := by
      unfold dm_lock_datastore
      rw [hds]
      simp
    rw [heq]
    exact ⟨fun x h => h, hds, rfl⟩
  | false =>
    by_cases hok : (dmLockDatastoreLoop others authorized schemas [] st.locked_files).1 = .ok
    · have heq : dm_lock_datastore st others authorized schemas =
          (.ok, ⟨true, true, (dmLockDatastoreLoop others authorized schemas [] st.locked_files).2⟩) := by
        unfold dm_lock_datastore
        rw [hds]
        simp [hok]
      rw [heq] at hfail
      exact absurd rfl hfail
    · have heq : dm_lock_datastore st others authorized schemas =
          ((dmLockDatastoreLoop others authorized schemas [] st.locked_files).1,
            ⟨false, false, (dmLockDatastoreLoop others authorized schemas [] st.locked_files).2⟩) := by
        unfold dm_lock_datastore
        rw [hds]
        simp [hok]
      rw [heq]
      have hsub := dmLockDatastoreLoop_fail_subset others authorized schemas [] st.locked_files
        (by intro l hl; exact absurd hl (List.not_mem_nil l)) hok
      simp only [List.foldl_nil] at hsub
      have hh : st.holds_ds_lock = false := by
        cases hh2 : st.holds_ds_lock
        · rfl
        · rw [hinv hh2] at hds
          exact absurd hds (by decide)
      exact ⟨hsub, rfl, hh.symm⟩

/-- Witness for C7 at a concrete input: module 2 is locked by another
session, so locking the datastore over schemas [1, 2] fails with
SR_ERR_LOCKED, releases module 1 (locked by the call) and leaves the
session with no module lock and no datastore lock. -/
theorem dm_lock_datastore_all_or_none_witness :
    (dm_lock_datastore ⟨false, false, []⟩ [2] [1, 2] [1, 2]).1 = .locked
    ∧ (dm_lock_datastore ⟨false, false, []⟩ [2] [1, 2] [1, 2]).2.locked_files ⊆ []
    ∧ (dm_lock_datastore ⟨false, false, []⟩ [2] [1, 2] [1, 2]).2.ds_lock = false :=
  ⟨by decide,
    (dm_lock_datastore_all_or_none ⟨false, false, []⟩ [2] [1, 2] [1, 2]
      (fun h => absurd h (by decide)) (by decide)).1,
    (dm_lock_datastore_all_or_none ⟨false, false, []⟩ [2] [1, 2] [1, 2]
      (fun h => absurd h (by decide)) (by decide)).2.1⟩

/-- Modelled from the spec: rp_dt_lock, the request-processor entry point
called by rp_lock_req_process (request_processor.c line 953) for a
datastore-level lock request, is not part of the provided sources; per the
spec, the datastore lock "cannot be acquired while the session has unsaved
modifications", so a session whose current datastore holds a modified data
tree is refused with an error before dm_lock_datastore runs. -/
def rp_dt_lock (st : DmLockState) (sessionModified : Bool)
    (others authorized schemas : List Nat) : SrErr × DmLockState :=
  if sessionModified then (.operationFailed, st)
  else dm_lock_datastore st others authorized schemas

/-- C8: a session with unsaved modifications in its working set cannot
acquire the datastore lock: the lock request fails and the lock state is
untouched (neither the datastore lock nor any module lock is taken). -/
theorem rp_dt_lock_rejects_modified_session (st : DmLockState)
    (others authorized schemas : List Nat) :
    (rp_dt_lock st true others authorized schemas).1 = .operationFailed
    ∧ (rp_dt_lock st true others authorized schemas).2 = st := by
  constructor <;> rfl

/-- rp_request_state_t: the per-session request processing state. -/
inductive RpRequestState where
  | NEW
  | WAITING_FOR_DATA
  | DATA_LOADED
  | FINISHED
deriving DecidableEq, Repr

/-- The operational-data-relevant part of rp_session_t: the request state,
the pending request (identified by the value used as request_id, the
pointer session->req; none for NULL), the outstanding provider-response
counter dp_req_waiting, and the session working data tree (an xpath-value
association updated through the set primitive). -/
structure RpSession where
  state : RpRequestState
  req : Option Nat
  dp_req_waiting : Nat
  dtree : List (Nat × Nat)
deriving DecidableEq, Repr

/-- The C expression ((uint64_t) session->req): NULL maps to 0. -/
def rpReqId (r : Option Nat) : Nat :=
  match r with
  | some x => x
  | none => 0

/-- The size_t decrement session->dp_req_waiting -= 1 (request_processor.c
line 1381), with machine wrap-around at zero. -/
def sizeSub1 (n : Nat) : Nat :=
  (n + (2 ^ 64 - 1)) % 2 ^ 64

/-- rp_data_provide_resp_process (request_processor.c lines 1353-1395),
parameterized by the set primitive rp_dt_set_item (defined outside the
provided sources): a response whose session is not WAITING_FOR_DATA, or
whose request_id does not equal the pending request, is discarded; a
matching response merges every received value into the working tree via
the set primitive and decrements dp_req_waiting; when the counter reaches
zero the session state becomes DATA_LOADED and the pending request is
re-enqueued (the returned Option Nat is the rp_msg_process call). -/
def rp_data_provide_resp_process
    (setItem : List (Nat × Nat) → Nat → Nat → List (Nat × Nat))
    (s : RpSession) (respReqId : Nat) (values : List (Nat × Nat)) :
    RpSession × Option Nat :=
  if s.state ≠ .WAITING_FOR_DATA ∨ s.req = none ∨ respReqId ≠ rpReqId s.req then
    (s, none)
  else
    let tree := values.foldl (fun t v => setItem t v.1 v.2) s.dtree
    let waiting := sizeSub1 s.dp_req_waiting
    if waiting = 0 then
      ({ s with state := .DATA_LOADED, dp_req_waiting := waiting, dtree := tree }, s.req)
    else
      ({ s with dp_req_waiting := waiting, dtree := tree }, none)

/-- rp_oper_data_timeout_req_process (request_processor.c lines 1501-1516):
when the timeout request id equals the pending request, the pending request
is re-enqueued via rp_msg_process; the session itself is not modified. -/
def rp_oper_data_timeout_req_process (s : RpSession) (reqId : Nat) :
    RpSession × Option Nat :=
  if rpReqId s.req = reqId then (s, s.req) else (s, none)

/-- The state fix-up prologue shared by rp_get_item_req_process and
rp_get_items_req_process (request_processor.c lines 358-372 and 442-456):
when a request is processed while the session is WAITING_FOR_DATA and the
request is the pending one (the timed-out case), the state becomes
DATA_LOADED; a FINISHED state is reset to NEW; then the request is stored
as session->req. -/
def rp_request_prologue (s : RpSession) (msgId : Nat) : RpSession :=
  let s1 :=
    if s.state = .FINISHED then { s with state := .NEW }
    else if s.state = .WAITING_FOR_DATA then
      if s.req = some msgId then { s with state := .DATA_LOADED }
      else { s with state := .NEW }
    else s
  { s1 with req := some msgId }

/-- The session of the C9 counterexample: waiting for two provider responses
for pending request 5. -/
def cexWaitingSession : RpSession :=
  ⟨.WAITING_FOR_DATA, some 5, 2, []⟩

/-- C9 counterexample: when the armed timeout expires for the pending
request, the request is re-enqueued, but the session state at re-enqueue
time is still WAITING_FOR_DATA, not DATA_LOADED as the claim states: the
timeout handler does not change the session state (the DATA_LOADED
transition happens only when the re-enqueued request is processed). -/
theorem rp_oper_data_timeout_state_cex :
    (rp_oper_data_timeout_req_process cexWaitingSession 5).2 = some 5
    ∧ (rp_oper_data_timeout_req_process cexWaitingSession 5).1.state = .WAITING_FOR_DATA := by
  constructor <;> rfl

/-- C9 amended: a read suspended for provider data is never silently
dropped. A provider response matching the pending request merges its values
through the set primitive and decrements the waiting counter; the pending
request is re-enqueued with session state DATA_LOADED when the counter
reaches zero. When the armed timeout expires for the pending request, the
request is re-enqueued as-is (state still WAITING_FOR_DATA) with whatever
data has arrived, and the session transitions to DATA_LOADED when the
re-enqueued request is next processed. A response arriving for a different
request, or after the session has left WAITING_FOR_DATA, is discarded
without effect. -/
theorem rp_oper_data_flow_spec
    (setItem : List (Nat × Nat) → Nat → Nat → List (Nat × Nat))
    (s : RpSession) (respId : Nat) (values : List (Nat × Nat)) :
    (s.state = .WAITING_FOR_DATA → s.req = some respId →
      0 < s.dp_req_waiting → s.dp_req_waiting < 2 ^ 64 →
      (rp_data_provide_resp_process setItem s respId values).1.dtree =
          values.foldl (fun t v => setItem t v.1 v.2) s.dtree
        ∧ (rp_data_provide_resp_process setItem s respId values).1.dp_req_waiting =
            s.dp_req_waiting - 1
        ∧ (s.dp_req_waiting = 1 →
            (rp_data_provide_resp_process setItem s respId values).2 = some respId
            ∧ (rp_data_provide_resp_process setItem s respId values).1.state = .DATA_LOADED)
        ∧ (1 < s.dp_req_waiting →
            (rp_data_provide_resp_process setItem s respId values).2 = none
            ∧ (rp_data_provide_resp_process setItem s respId values).1.state =
                .WAITING_FOR_DATA))
    ∧ (¬ (s.state = .WAITING_FOR_DATA ∧ s.req = some respId) →
        rp_data_provide_resp_process setItem s respId values = (s, none))
    ∧ (s.req = some respId →
        rp_oper_data_timeout_req_process s respId = (s, some respId)
        ∧ (s.state = .WAITING_FOR_DATA →
            (rp_request_prologue s respId).state = .DATA_LOADED
            ∧ (rp_request_prologue s respId).dtree = s.dtree)) := by
  refine ⟨?_, ?_, ?_⟩
  · intro hst hreq hpos hlt
    have hguard : ¬ (s.state ≠ RpRequestState.WAITING_FOR_DATA ∨ s.req = none
        ∨ respId ≠ rpReqId s.req) := by
      push_neg
      exact ⟨hst, by rw [hreq]; exact fun h => Option.noConfusion h, by rw [hreq]; rfl⟩
    have hsub : sizeSub1 s.dp_req_waiting = s.dp_req_waiting - 1 := by
      unfold sizeSub1
      omega
    unfold rp_data_provide_resp_process
    rw [if_neg hguard, hsub]
    by_cases hone : s.dp_req_waiting = 1
    · rw [if_pos (by omega)]
      refine ⟨rfl, rfl, fun _ => ⟨by rw [hreq], rfl⟩, fun hgt => absurd hone (by omega)⟩
    · rw [if_neg (by omega)]
      exact ⟨rfl, rfl, fun h1 => absurd h1 hone, fun _ => ⟨rfl, hst⟩⟩
  · intro hmis
    have hguard : s.state ≠ RpRequestState.WAITING_FOR_DATA ∨ s.req = none
        ∨ respId ≠ rpReqId s.req := by
      by_cases hst : s.state = RpRequestState.WAITING_FOR_DATA
      · cases hr : s.req with
        | none => exact Or.inr (Or.inl rfl)
        | some x =>
          have hx : x ≠ respId := by
            intro he
            exact hmis ⟨hst, by rw [hr, he]⟩
          exact Or.inr (Or.inr (fun he => hx (he.trans rfl).symm))
      · exact Or.inl hst
    unfold rp_data_provide_resp_process
    rw [if_pos hguard]
  · intro hreq
    have hid : rpReqId s.req = respId := by rw [hreq]; rfl
    refine ⟨?_, ?_⟩
    · unfold rp_oper_data_timeout_req_process
      rw [if_pos hid, hreq]
    · intro hst
      have hnf : ¬ s.state = RpRequestState.FINISHED := by rw [hst]; exact fun h => RpRequestState.noConfusion h
      unfold rp_request_prologue
      rw [if_neg hnf, if_pos hst, if_pos hreq]
      exact ⟨rfl, rfl⟩

/-- Witness for the amended C9 theorem: the waiting session with counter 2
and pending request 5 receives a matching response (counter drops to 1, no
re-enqueue yet), a mismatching response for request 9 is discarded, and the
expired timeout re-enqueues request 5 with the prologue then entering
DATA_LOADED. -/
theorem rp_oper_data_flow_spec_witness :
    ((rp_data_provide_resp_process (fun t x v => (x, v) :: t) cexWaitingSession 5
        [(1, 7)]).1.dp_req_waiting = 2 - 1)
    ∧ rp_data_provide_resp_process (fun t x v => (x, v) :: t) cexWaitingSession 9 []
        = (cexWaitingSession, none)
    ∧ rp_oper_data_timeout_req_process cexWaitingSession 5 = (cexWaitingSession, some 5)
    ∧ (rp_request_prologue cexWaitingSession 5).state = .DATA_LOADED :=
  ⟨((rp_oper_data_flow_spec (fun t x v => (x, v) :: t) cexWaitingSession 5
      [(1, 7)]).1 rfl rfl (by decide) (by decide)).2.1,
    (rp_oper_data_flow_spec (fun t x v => (x, v) :: t) cexWaitingSession 9 []).2.1
      (by intro h; exact Option.noConfusion h.2 (by decide)),
    ((rp_oper_data_flow_spec (fun t x v => (x, v) :: t) cexWaitingSession 5 []).2.2 rfl).1,
    (((rp_oper_data_flow_spec (fun t x v => (x, v) :: t) cexWaitingSession 5 []).2.2
        rfl).2 rfl).1⟩

/-- Sr__Msg__MsgType. -/
inductive SrMsgType where
  | REQUEST
  | RESPONSE
  | INTERNAL_REQUEST
  | NOTIFICATION_ACK
deriving DecidableEq, Repr

/-- Sr__Operation (the request operations distinguished by rp_msg_dispatch
and rp_req_dispatch). -/
inductive SrOperation where
  | GET_ITEM
  | GET_ITEMS
  | SESSION_REFRESH
  | GET_CHANGES
  | UNSUBSCRIBE
  | SET_ITEM
  | DELETE_ITEM
  | MOVE_ITEM
  | VALIDATE
  | COMMIT
  | DISCARD_CHANGES
  | COPY_CONFIG
  | LOCK
  | UNLOCK
  | SUBSCRIBE
  | RPC
  | ACTION
  | EVENT_NOTIF
  | DATA_PROVIDE
  | SESSION_SWITCH_DS
  | LIST_SCHEMAS
deriving DecidableEq, Repr

/-- A message as rp_msg_dispatch inspects it: type and operation. -/
structure RpMsg where
  mtype : SrMsgType
  op : SrOperation
deriving DecidableEq, Repr

/-- The whitelist test of rp_msg_dispatch (request_processor.c lines
1852-1857): the request operations allowed on a notification session. -/
def rpNotifSessionAllowed (op : SrOperation) : Bool :=
  op == .GET_ITEM || op == .GET_ITEMS || op == .SESSION_REFRESH
    || op == .GET_CHANGES || op == .UNSUBSCRIBE

/-- rp_msg_dispatch (request_processor.c lines 1834-1894) for a present
session, parameterized by the downstream dispatch (rp_req_dispatch and the
other handlers) as a state transformer: a request on a session carrying
SESS_NOTIFICATION whose operation is not whitelisted is rejected with
SR_ERR_UNSUPPORTED before any handler runs and the session is returned
unchanged; every other message reaches its handler. -/
def rp_msg_dispatch {α : Type}
    (handler : SrMsgType → SrOperation → α → α)
    (notifSession : Bool) (session : α) (msg : RpMsg) : SrErr × α :=
  if msg.mtype = .REQUEST ∧ notifSession = true ∧ rpNotifSessionAllowed msg.op = false then
    (.unsupported, session)
  else
    (.ok, handler msg.mtype msg.op session)

/-- C10: on a notification session, a request operation outside
{GET_ITEM, GET_ITEMS, SESSION_REFRESH, GET_CHANGES, UNSUBSCRIBE} is
rejected with SR_ERR_UNSUPPORTED before reaching its handler, leaving the
session unchanged (for every possible handler), a whitelisted request
operation is dispatched to its handler, and the whitelist contains exactly
those five operations. -/
theorem rp_msg_dispatch_notif_whitelist {α : Type}
    (handler : SrMsgType → SrOperation → α → α) (session : α) (msg : RpMsg) :
    (msg.mtype = .REQUEST →
      (rpNotifSessionAllowed msg.op = false →
        rp_msg_dispatch handler true session msg = (.unsupported, session))
      ∧ (rpNotifSessionAllowed msg.op = true →
        rp_msg_dispatch handler true session msg = (.ok, handler msg.mtype msg.op session)))
    ∧ (rpNotifSessionAllowed msg.op = true ↔
        (msg.op = .GET_ITEM ∨ msg.op = .GET_ITEMS ∨ msg.op = .SESSION_REFRESH
          ∨ msg.op = .GET_CHANGES ∨ msg.op = .UNSUBSCRIBE)) := by
  refine ⟨?_, ?_⟩
  · intro hreq
    constructor
    · intro hno
      unfold rp_msg_dispatch
      rw [if_pos ⟨hreq, rfl, hno⟩]
    · intro hyes
      unfold rp_msg_dispatch
      rw [if_neg ?_]
      intro ⟨_, _, hcon⟩
      rw [hyes] at hcon
      exact Bool.true_eq_false.mp hcon
  · unfold rpNotifSessionAllowed
    cases msg.op <;> simp

/-- Witness for C10: a COMMIT request on a notification session is rejected
with SR_ERR_UNSUPPORTED leaving the session (here the value 0) unchanged,
while a GET_ITEM request reaches its handler. -/
theorem rp_msg_dispatch_notif_whitelist_witness :
    rp_msg_dispatch (fun _ _ n => n + 1) true 0 ⟨.REQUEST, .COMMIT⟩ = (.unsupported, 0)
    ∧ rp_msg_dispatch (fun _ _ n => n + 1) true 0 ⟨.REQUEST, .GET_ITEM⟩ = (.ok, 1) :=
  ⟨((rp_msg_dispatch_notif_whitelist (fun _ _ n => n + 1) 0 ⟨.REQUEST, .COMMIT⟩).1
      rfl).1 (by decide),
    ((rp_msg_dispatch_notif_whitelist (fun _ _ n => n + 1) 0 ⟨.REQUEST, .GET_ITEM⟩).1
      rfl).2 (by decide)⟩
